import Mathlib

/-!
Verification development for the container-ui registry gateway.

This file gives a shallow embedding of the Go sources of the repository:
the in-memory content store (`internal/storage/memory.go`, here `MemoryStorage`),
the V2 registry HTTP handlers (`internal/registry/handler.go`),
the redirect-following transport (`internal/proxy/transport.go`),
the in-memory config store (`internal/config/memory.go`, `MemoryConfigStore`),
the registry manager and gateway routing (`internal/registry/manager.go`,
`internal/server/*.go` `CreateProxyHandler`, `StartAdminServer`).

Go maps are modelled as association lists with unique keys: `insertA`
prepends the new binding after erasing the key, `eraseA` removes the key,
`lookupA` finds the first binding.  Iteration order of Go maps is
unspecified, so any fixed order is a sound model for listing operations.
Byte slices are `List Nat`, sha256 is implemented bit-for-bit (FIPS 180-4)
over such byte lists, matching Go's `crypto/sha256` on the verbatim bytes.
-/

namespace ContainerUI

/-- Lookup of a key in an association list (first binding wins), modelling
Go map indexing `m[k]` together with its `ok` flag. -/
def lookupA {α : Type} (k : String) : List (String × α) → Option α
  | [] => none
  | (k2, v) :: rest => if k2 = k then some v else lookupA k rest

/-- Removal of a key from an association list, modelling Go `delete(m, k)`. -/
def eraseA {α : Type} (k : String) : List (String × α) → List (String × α) :=
  fun l => l.filter (fun p => p.1 != k)

/-- Insertion (or replacement) of a binding, modelling Go `m[k] = v`. -/
def insertA {α : Type} (k : String) (v : α) (l : List (String × α)) :
    List (String × α) :=
  (k, v) :: eraseA k l

theorem lookupA_insertA_self {α : Type} (k : String) (v : α)
    (l : List (String × α)) : lookupA k (insertA k v l) = some v := by
  simp [insertA, lookupA]

theorem lookupA_eraseA_self {α : Type} (k : String) (l : List (String × α)) :
    lookupA k (eraseA k l) = none := by
  induction l with
  | nil => rfl
  | cons p rest ih =>
    by_cases h : p.1 = k
    · simpa [eraseA, List.filter_cons, bne_iff_ne, h] using ih
    · simpa [eraseA, List.filter_cons, bne_iff_ne, h, lookupA] using ih

theorem lookupA_eraseA_ne {α : Type} (k k2 : String) (l : List (String × α))
    (h : k2 ≠ k) : lookupA k2 (eraseA k l) = lookupA k2 l := by
  induction l with
  | nil => rfl
  | cons p rest ih =>
    have hk2 : ¬ (k = k2) := fun hc => h hc.symm
    by_cases hp : p.1 = k
    · have hpk : ¬ p.1 = k2 := by
        rw [hp]; exact hk2
      simpa [eraseA, List.filter_cons, bne_iff_ne, hp, lookupA, hpk, hk2] using ih
    · by_cases hpk : p.1 = k2
      · simp [eraseA, List.filter_cons, bne_iff_ne, hp, lookupA, hpk, h, hk2]
      · simpa [eraseA, List.filter_cons, bne_iff_ne, hp, lookupA, hpk, h, hk2] using ih

theorem lookupA_insertA_ne {α : Type} (k k2 : String) (v : α)
    (l : List (String × α)) (h : k2 ≠ k) :
    lookupA k2 (insertA k v l) = lookupA k2 l := by
  have hk : ¬ (k = k2) := fun hc => h hc.symm
  simp [insertA, lookupA, hk, lookupA_eraseA_ne k k2 l h]

/-! ## SHA-256 (FIPS 180-4), as computed by Go `crypto/sha256` -/

/-- Truncation to a 32-bit word. -/
def w32 (n : Nat) : Nat := n % 4294967296

/-- Rotation of a 32-bit word to the right by `n` positions. -/
def rotr (n x : Nat) : Nat := w32 ((x >>> n) ||| (x <<< (32 - n)))

def bSig0 (x : Nat) : Nat := (rotr 2 x) ^^^ (rotr 13 x) ^^^ (rotr 22 x)
def bSig1 (x : Nat) : Nat := (rotr 6 x) ^^^ (rotr 11 x) ^^^ (rotr 25 x)
def sSig0 (x : Nat) : Nat := (rotr 7 x) ^^^ (rotr 18 x) ^^^ (x >>> 3)
def sSig1 (x : Nat) : Nat := (rotr 17 x) ^^^ (rotr 19 x) ^^^ (x >>> 10)

def chF (x y z : Nat) : Nat := (x &&& y) ^^^ ((x ^^^ 4294967295) &&& z)
def majF (x y z : Nat) : Nat := (x &&& y) ^^^ (x &&& z) ^^^ (y &&& z)

/-- The 64 round constants of FIPS 180-4 section 4.2.2, in decimal. -/
def sha256K : List Nat :=
  [1116352408, 1899447441, 3049323471, 3921009573, 961987163,
   1508970993, 2453635748, 2870763221, 3624381080, 310598401,
   607225278, 1426881987, 1925078388, 2162078206, 2614888103,
   3248222580, 3835390401, 4022224774, 264347078, 604807628,
   770255983, 1249150122, 1555081692, 1996064986, 2554220882,
   2821834349, 2952996808, 3210313671, 3336571891, 3584528711,
   113926993, 338241895, 666307205, 773529912, 1294757372,
   1396182291, 1695183700, 1986661051, 2177026350, 2456956037,
   2730485921, 2820302411, 3259730800, 3345764771, 3516065817,
   3600352804, 4094571909, 275423344, 430227734, 506948616,
   659060556, 883997877, 958139571, 1322822218, 1537002063,
   1747873779, 1955562222, 2024104815, 2227730452, 2361852424,
   2428436474, 2756734187, 3204031479, 3329325298]

/-- The initial hash value of FIPS 180-4 section 5.3.3, in decimal. -/
def sha256H0 : List Nat :=
  [1779033703, 3144134277, 1013904242, 2773480762, 1359893119,
   2600822924, 528734635, 1541459225]

/-- Big-endian bytes of the 64-bit message length. -/
def lenBytes64 (n : Nat) : List Nat :=
  [(n >>> 56) % 256, (n >>> 48) % 256, (n >>> 40) % 256, (n >>> 32) % 256,
   (n >>> 24) % 256, (n >>> 16) % 256, (n >>> 8) % 256, n % 256]

/-- SHA-256 message padding: append 0x80, zero fill to 56 mod 64, then the
bit length as 8 big-endian bytes. -/
def padMsg (m : List Nat) : List Nat :=
  let L := m.length
  let k := (119 - (L % 64)) % 64
  m ++ 128 :: List.replicate k 0 ++ lenBytes64 (8 * L)

/-- Group a byte list into big-endian 32-bit words. -/
def toWords : List Nat → List Nat
  | b0 :: b1 :: b2 :: b3 :: rest =>
      (((b0 * 256 + b1) * 256 + b2) * 256 + b3) :: toWords rest
  | _ => []

/-- Extend a 16-word block to the 64-word message schedule; `n` counts the
remaining words to produce. -/
def extendSched (W : List Nat) : Nat → List Nat
  | 0 => W
  | Nat.succ n =>
      let L := W.length
      let w := w32 (sSig1 (W.getD (L - 2) 0) + W.getD (L - 7) 0 +
                    sSig0 (W.getD (L - 15) 0) + W.getD (L - 16) 0)
      extendSched (W ++ [w]) n

/-- One pass of the 64 compression rounds over schedule and constants. -/
def rounds : List Nat → List Nat → List Nat → List Nat
  | [], _, st => st
  | _, [], st => st
  | w :: ws, kc :: ks, st =>
    match st with
    | [a, b, c, d, e, f, g, h] =>
      let t1 := w32 (h + bSig1 e + chF e f g + kc + w)
      let t2 := w32 (bSig0 a + majF a b c)
      rounds ws ks [w32 (t1 + t2), a, b, c, w32 (d + t1), e, f, g]
    | other => other

/-- Compress one 16-word block into the running hash state. -/
def compressBlock (H block : List Nat) : List Nat :=
  let W := extendSched block 48
  let st := rounds W sha256K H
  List.zipWith (fun x y => w32 (x + y)) H st

/-- Split a word list into consecutive 16-word blocks (padding makes the
length a multiple of 16). -/
def chunks16 : List Nat → List (List Nat)
  | a1 :: a2 :: a3 :: a4 :: a5 :: a6 :: a7 :: a8 ::
    a9 :: a10 :: a11 :: a12 :: a13 :: a14 :: a15 :: a16 :: rest =>
      [a1, a2, a3, a4, a5, a6, a7, a8,
       a9, a10, a11, a12, a13, a14, a15, a16] :: chunks16 rest
  | _ => []

/-- The eight 32-bit words of the SHA-256 digest of a byte list. -/
def sha256Words (m : List Nat) : List Nat :=
  (chunks16 (toWords (padMsg m))).foldl compressBlock sha256H0

def hexDigit (n : Nat) : Char :=
  if n = 0 then '0' else if n = 1 then '1' else if n = 2 then '2'
  else if n = 3 then '3' else if n = 4 then '4' else if n = 5 then '5'
  else if n = 6 then '6' else if n = 7 then '7' else if n = 8 then '8'
  else if n = 9 then '9' else if n = 10 then 'a' else if n = 11 then 'b'
  else if n = 12 then 'c' else if n = 13 then 'd' else if n = 14 then 'e'
  else 'f'

/-- Lowercase hex of one 32-bit word (8 digits). -/
def hexWord (w : Nat) : String :=
  String.mk [hexDigit ((w >>> 28) % 16), hexDigit ((w >>> 24) % 16),
             hexDigit ((w >>> 20) % 16), hexDigit ((w >>> 16) % 16),
             hexDigit ((w >>> 12) % 16), hexDigit ((w >>> 8) % 16),
             hexDigit ((w >>> 4) % 16), hexDigit (w % 16)]

/-- Lowercase hex digest, 64 characters, as produced by Go
`fmt.Sprintf("%x", sha256.Sum256(body))`. -/
def sha256Hex (m : List Nat) : String :=
  String.join ((sha256Words m).map hexWord)

/-- Bytes of an ASCII string, for concrete inputs. -/
def strBytes (s : String) : List Nat := s.data.map Char.toNat

/-- Does `text` start with `pat`?  (Go `strings.HasPrefix`, on characters.) -/
def seqStarts : List Char → List Char → Bool
  | [], _ => true
  | _ :: _, [] => false
  | p :: ps, t :: ts => p == t && seqStarts ps ts

/-- Does `text` contain `pat` as a contiguous subsequence?
(Go `strings.Contains`, on characters.) -/
def seqHasSub : List Char → List Char → Bool
  | [], _ => true
  | _ :: _, [] => false
  | pat, t :: ts => seqStarts pat (t :: ts) || seqHasSub pat ts

/-- Substring containment on strings. -/
def strHasSub (pat s : String) : Bool := seqHasSub pat.data s.data

theorem seqStarts_self_append : ∀ (p rest : List Char),
    seqStarts p (p ++ rest) = true
  | [], _ => rfl
  | c :: ps, rest => by
    simp [seqStarts, seqStarts_self_append ps rest]

/-! ## Content store, memory variant (`internal/storage/memory.go`) -/

/-- `Repository` of `memory.go`: tags (tag → digest), manifests
(digest → bytes), blobs (digest → bytes). -/
structure Repo where
  name : String
  tags : List (String × String)
  manifests : List (String × List Nat)
  blobs : List (String × List Nat)
deriving DecidableEq

/-- A fresh repository record as allocated by the Go code. -/
def emptyRepo (n : String) : Repo :=
  { name := n, tags := [], manifests := [], blobs := [] }

/-- `MemoryStorage`: repositories plus per-repository upload sessions
(uploadID → accumulated bytes). -/
structure MemoryStorage where
  repositories : List (String × Repo)
  uploads : List (String × List (String × List Nat))
deriving DecidableEq

/-- `NewMemoryStorage()`. -/
def newMemoryStorage : MemoryStorage := { repositories := [], uploads := [] }

/-- The error values produced by the storage layer (Go returns
`fmt.Errorf` values with these messages). -/
inductive StorageErr where
  | repositoryNotFound (repo : String)
  | tagNotFound (tag : String)
  | manifestNotFound (digest : String)
  | blobNotFound (digest : String)
  | noUploadsForRepository (repo : String)
  | uploadNotFound (id : String)
deriving DecidableEq

/-- The message carried by each storage error, as formatted by the Go code. -/
def errMsg : StorageErr → String
  | .repositoryNotFound r => "repository not found: " ++ r
  | .tagNotFound t => "tag not found: " ++ t
  | .manifestNotFound d => "manifest not found: " ++ d
  | .blobNotFound d => "blob not found: " ++ d
  | .noUploadsForRepository r => "no uploads for repository: " ++ r
  | .uploadNotFound id => "upload not found: " ++ id

/-- `strings.HasPrefix(reference, "sha256:")`, the digest-form test used
throughout the storage layer and handlers. -/
def isDigestForm (reference : String) : Bool :=
  seqStarts "sha256:".data reference.data

theorem isDigestForm_sha256 (x : String) :
    isDigestForm ("sha256:" ++ x) = true := by
  show seqStarts "sha256:".data ("sha256:" ++ x).data = true
  have hd : ("sha256:" ++ x).data = "sha256:".data ++ x.data := rfl
  rw [hd]
  exact seqStarts_self_append _ _

/-- `MemoryStorage.ListTags`: empty (not an error) when the repository is
unknown, otherwise the keys of the tag map. -/
def listTags (s : MemoryStorage) (repository : String) : List String :=
  match lookupA repository s.repositories with
  | none => []
  | some r => r.tags.map Prod.fst

/-- `MemoryStorage.GetManifestByDigest`. -/
def getManifestByDigest (s : MemoryStorage) (repository digest : String) :
    Except StorageErr (List Nat × String) :=
  match lookupA repository s.repositories with
  | none => .error (.repositoryNotFound repository)
  | some r =>
    match lookupA digest r.manifests with
    | none => .error (.manifestNotFound digest)
    | some m => .ok (m, digest)

/-- `MemoryStorage.GetManifest`: digest-form references go straight to the
digest lookup, tags are resolved first. -/
def getManifest (s : MemoryStorage) (repository reference : String) :
    Except StorageErr (List Nat × String) :=
  if isDigestForm reference then getManifestByDigest s repository reference
  else
    match lookupA repository s.repositories with
    | none => .error (.repositoryNotFound repository)
    | some r =>
      match lookupA reference r.tags with
      | none => .error (.tagNotFound reference)
      | some d => getManifestByDigest s repository d

/-- `MemoryStorage.PutManifest`: creates the repository if needed, stores
the manifest under the digest, and records the tag when the reference is a
non-empty, non-digest-form string.  Never fails. -/
def putManifest (s : MemoryStorage) (repository reference digest : String)
    (manifest : List Nat) : MemoryStorage :=
  let r := (lookupA repository s.repositories).getD (emptyRepo repository)
  let r2 := { r with manifests := insertA digest manifest r.manifests }
  let r3 :=
    if reference = "" then r2
    else if isDigestForm reference then r2
    else { r2 with tags := insertA reference digest r2.tags }
  { s with repositories := insertA repository r3 s.repositories }

/-- `MemoryStorage.DeleteManifest`: digest form deletes only the manifest
record; tag form resolves the tag, then deletes the tag and the manifest
record unconditionally (no reference counting). -/
def deleteManifest (s : MemoryStorage) (repository reference : String) :
    Except StorageErr MemoryStorage :=
  match lookupA repository s.repositories with
  | none => .error (.repositoryNotFound repository)
  | some r =>
    if isDigestForm reference then
      let r2 := { r with manifests := eraseA reference r.manifests }
      .ok { s with repositories := insertA repository r2 s.repositories }
    else
      match lookupA reference r.tags with
      | none => .error (.tagNotFound reference)
      | some d =>
        let r2 := { r with tags := eraseA reference r.tags,
                           manifests := eraseA d r.manifests }
        .ok { s with repositories := insertA repository r2 s.repositories }

/-- `MemoryStorage.GetBlobSize`. -/
def getBlobSize (s : MemoryStorage) (repository digest : String) :
    Except StorageErr Int :=
  match lookupA repository s.repositories with
  | none => .error (.repositoryNotFound repository)
  | some r =>
    match lookupA digest r.blobs with
    | none => .error (.blobNotFound digest)
    | some b => .ok (Int.ofNat b.length)

/-- `MemoryStorage.GetBlob`: the bytes (the Go read stream over them) and
their length. -/
def getBlob (s : MemoryStorage) (repository digest : String) :
    Except StorageErr (List Nat × Int) :=
  match lookupA repository s.repositories with
  | none => .error (.repositoryNotFound repository)
  | some r =>
    match lookupA digest r.blobs with
    | none => .error (.blobNotFound digest)
    | some b => .ok (b, Int.ofNat b.length)

/-- `MemoryStorage.InitiateUpload`: ensures the repository and the
per-repository upload map exist, then starts an empty session. -/
def initiateUpload (s : MemoryStorage) (repository uploadID : String) :
    MemoryStorage :=
  let repos :=
    if (lookupA repository s.repositories).isSome then s.repositories
    else insertA repository (emptyRepo repository) s.repositories
  let ru := (lookupA repository s.uploads).getD []
  { repositories := repos,
    uploads := insertA repository (insertA uploadID [] ru) s.uploads }

/-- `MemoryStorage.AppendToUpload`: appends the chunk and returns the new
total length of the session as the offset. -/
def appendToUpload (s : MemoryStorage) (repository uploadID : String)
    (data : List Nat) : Except StorageErr (MemoryStorage × Int) :=
  match lookupA repository s.uploads with
  | none => .error (.noUploadsForRepository repository)
  | some ru =>
    match lookupA uploadID ru with
    | none => .error (.uploadNotFound uploadID)
    | some current =>
      let upd := current ++ data
      .ok ({ s with uploads := insertA repository (insertA uploadID upd ru)
                      s.uploads },
           Int.ofNat upd.length)

/-- `MemoryStorage.CompleteUpload`: appends the trailing bytes, promotes the
accumulated bytes to a blob stored under the SUPPLIED digest, and removes
the session.  The source performs no digest verification. -/
def completeUpload (s : MemoryStorage) (repository uploadID digest : String)
    (data : List Nat) : Except StorageErr MemoryStorage :=
  match lookupA repository s.uploads with
  | none => .error (.noUploadsForRepository repository)
  | some ru =>
    match lookupA uploadID ru with
    | none => .error (.uploadNotFound uploadID)
    | some current =>
      let current2 := if 0 < data.length then current ++ data else current
      let r := (lookupA repository s.repositories).getD (emptyRepo repository)
      let r2 := { r with blobs := insertA digest current2 r.blobs }
      .ok { repositories := insertA repository r2 s.repositories,
            uploads := insertA repository (eraseA uploadID ru) s.uploads }

/-! ## V2 protocol handlers (`internal/registry/handler.go`)

The handlers are modelled as functions from the storage state and request
data to an HTTP response and the new storage state.  JSON-dependent helpers
of the handler file (`detectManifestMediaType`, `validateManifest`) are
passed in as function parameters: the claims settled here are conditioned
only on their boolean outcome, never on the JSON structure itself. -/

def mediaTypeManifestV2 : String :=
  "application/vnd.docker.distribution.manifest.v2+json"

/-- An HTTP response as assembled by the gin handlers: status, the headers
set by `c.Header`, and the body bytes. -/
structure HttpResponse where
  status : Nat
  headers : List (String × String)
  body : List Nat
deriving DecidableEq

/-- Value of a response header. -/
def headerVal (r : HttpResponse) (k : String) : Option String :=
  lookupA k r.headers

/-- `Handler.handleGetManifest`: digest-form references use the digest
lookup, others the tag path; storage errors become 404 "manifest unknown";
success returns the stored bytes with `Docker-Content-Digest`. -/
def handleGetManifest (detect : List Nat → String) (s : MemoryStorage)
    (repository reference : String) : HttpResponse :=
  let res :=
    if isDigestForm reference then getManifestByDigest s repository reference
    else getManifest s repository reference
  match res with
  | .error _ =>
    { status := 404,
      headers := [("Content-Type", mediaTypeManifestV2),
                  ("Docker-Content-Digest", "")],
      body := strBytes "manifest unknown" }
  | .ok (m, d) =>
    { status := 200,
      headers := [("Content-Type", detect m), ("Docker-Content-Digest", d)],
      body := m }

/-- `Handler.handlePutManifest`: digest is computed server-side as sha256 of
the verbatim body; `validate` stands for `validateManifest(body, mediaType)`
succeeding; on success the manifest is stored and 201 is returned with
`Docker-Content-Digest`.  (The `os.MkdirAll` side effect touches only the
filesystem and is not modelled.) -/
def handlePutManifest (validate : List Nat → String → Bool)
    (detect : List Nat → String) (s : MemoryStorage)
    (repository reference : String) (body : List Nat) :
    HttpResponse × MemoryStorage :=
  let digest := "sha256:" ++ sha256Hex body
  let mt := detect body
  if validate body mt then
    ({ status := 201, headers := [("Docker-Content-Digest", digest)],
       body := [] },
     putManifest s repository reference digest body)
  else
    ({ status := 400, headers := [], body := [] }, s)

/-- `Handler.handlePatchUpload`: appends the request body to the session;
any storage error is surfaced as HTTP 500 with the error message; success
is 202 with `Location`, `Range: 0-(offset-1)` and `Docker-Upload-UUID`. -/
def handlePatchUpload (s : MemoryStorage) (repository uploadID : String)
    (body : List Nat) : HttpResponse × MemoryStorage :=
  match appendToUpload s repository uploadID body with
  | .error e =>
    ({ status := 500, headers := [], body := strBytes (errMsg e) }, s)
  | .ok (s2, offset) =>
    ({ status := 202,
       headers := [("Location",
                     "/v2/" ++ repository ++ "/blobs/uploads/" ++ uploadID),
                   ("Range", "0-" ++ toString (offset - 1)),
                   ("Docker-Upload-UUID", uploadID)],
       body := [] }, s2)

/-- `Handler.handlePutUpload`: missing `digest` query parameter is 400; any
storage error is surfaced as HTTP 500; success is 201 with
`Docker-Content-Digest` and `Location`. -/
def handlePutUpload (s : MemoryStorage) (repository uploadID digest : String)
    (body : List Nat) : HttpResponse × MemoryStorage :=
  if digest = "" then
    ({ status := 400, headers := [],
       body := strBytes "Digest parameter required" }, s)
  else
    match completeUpload s repository uploadID digest body with
    | .error e =>
      ({ status := 500, headers := [], body := strBytes (errMsg e) }, s)
    | .ok s2 =>
      ({ status := 201,
         headers := [("Docker-Content-Digest", digest),
                     ("Location", "/v2/" ++ repository ++ "/blobs/" ++ digest)],
         body := [] }, s2)

/-- Run a sequence of PATCH requests against one upload session, collecting
the responses in order, threading the storage state. -/
def runPatchSeq (s : MemoryStorage) (repository uploadID : String) :
    List (List Nat) → List HttpResponse × MemoryStorage
  | [] => ([], s)
  | c :: cs =>
    let pr := handlePatchUpload s repository uploadID c
    let rest := runPatchSeq pr.2 repository uploadID cs
    (pr.1 :: rest.1, rest.2)

/-- Storage-level PATCH sequence: the offsets reported by successive
`appendToUpload` calls (the whole run fails if any append fails). -/
def runAppends (s : MemoryStorage) (repository uploadID : String) :
    List (List Nat) → Except StorageErr (MemoryStorage × List Int)
  | [] => .ok (s, [])
  | c :: cs =>
    match appendToUpload s repository uploadID c with
    | .error e => .error e
    | .ok (s2, offset) =>
      match runAppends s2 repository uploadID cs with
      | .error e => .error e
      | .ok (s3, offs) => .ok (s3, offset :: offs)

/-- Running totals `|c1|, |c1|+|c2|, …` of the chunk lengths, starting at
`acc`. -/
def prefixTotals : List (List Nat) → Nat → List Nat
  | [], _ => []
  | c :: cs, acc => (acc + c.length) :: prefixTotals cs (acc + c.length)

/-! ## Redirect-following transport (`internal/proxy/transport.go`)

The base transport is an arbitrary function from the dispatch index and the
request to the response (the index lets the upstream answer differently on
every dispatch).  URL strings are abstract; resolution of a `Location`
value against the current URL (`resp.Location()` in Go, which delegates to
`net/url`) is a function parameter, and request construction from a URL is
modelled as total.  A transport error aborts the loop and is surfaced
unchanged in Go; since every conjunct of the claim concerns delivered
responses, error-free executions are modelled. -/

structure ProxyRequest where
  method : String
  url : String
  headers : List (String × String)
  hasBody : Bool
deriving DecidableEq

structure ProxyResponse where
  status : Nat
  location : Option String
deriving DecidableEq

/-- `isRedirect`: 307, 301, 302, 303 (in the order the source tests them). -/
def isRedirectStatus (statusCode : Nat) : Bool :=
  statusCode = 307 || statusCode = 301 || statusCode = 302 || statusCode = 303

/-- The request built for a redirect target:
`http.NewRequestWithContext(ctx, origReq.Method, location, nil)` followed by
`copyHeaders(origReq.Header, newReq.Header)` — original method, original
headers, no body. -/
def mkRedirectRequest (orig : ProxyRequest) (u : String) : ProxyRequest :=
  { method := orig.method, url := u, headers := orig.headers, hasBody := false }

/-- The trace of `RedirectFollowingTransport.RoundTrip`: the list of
(dispatched request, response) pairs, one entry per dispatch through the
base transport.  `k` is the dispatch index, `fuel` the remaining loop
iterations (`maxRedirects` at the start). -/
def rtTrace (base : Nat → ProxyRequest → ProxyResponse)
    (resolve : String → String → String) (orig : ProxyRequest) :
    ProxyRequest → Nat → Nat → List (ProxyRequest × ProxyResponse)
  | _, _, 0 => []
  | req, k, Nat.succ fuel =>
    let resp := base k req
    if isRedirectStatus resp.status then
      match resp.location with
      | none => [(req, resp)]
      | some loc =>
        (req, resp) ::
          rtTrace base resolve orig
            (mkRedirectRequest orig (resolve req.url loc)) (k + 1) fuel
    else [(req, resp)]

/-- The response of the last dispatch in a trace. -/
def lastResp : List (ProxyRequest × ProxyResponse) → ProxyResponse
  | [] => { status := 0, location := none }
  | [(_, r)] => r
  | _ :: p :: rest => lastResp (p :: rest)

/-- `RoundTrip` with `maxRedirects = 5`, as installed by
`NewRegistryProxyHandler`: the response returned to the reverse proxy. -/
def roundTrip (base : Nat → ProxyRequest → ProxyResponse)
    (resolve : String → String → String) (req : ProxyRequest) :
    ProxyResponse :=
  lastResp (rtTrace base resolve req req 0 5)

/-! ## Config store and gateway routing
(`internal/config/*.go`, `internal/registry/manager.go`,
`internal/server/server.go`) -/

/-- `config.Config` with its JSON tags `hostName`, `remoteUrl`,
`username,omitempty`, `password,omitempty`, `dnsNames,omitempty`.  Go zero
values: empty strings, nil slice (`none`). -/
structure Config where
  hostName : String
  remoteUrl : String
  username : String
  password : String
  dnsNames : Option (List String)
deriving DecidableEq

/-- `MemoryConfigStore`: a map from host name to mapping. -/
structure MemoryConfigStore where
  configs : List (String × Config)
deriving DecidableEq

/-- `MemoryConfigStore.Get`: the full record, credentials included. -/
def csGet (s : MemoryConfigStore) (hostName : String) : Option Config :=
  lookupA hostName s.configs

/-- The sanitized copy built by `MemoryConfigStore.List`: only `HostName`
and `RemoteURL` are copied; `Username`, `Password`, `DNSNames` stay at
their zero values. -/
def scrubConfig (c : Config) : Config :=
  { hostName := c.hostName, remoteUrl := c.remoteUrl,
    username := "", password := "", dnsNames := none }

/-- `MemoryConfigStore.List`: sanitized copies of every mapping. -/
def csList (s : MemoryConfigStore) : List Config :=
  s.configs.map (fun p => scrubConfig p.2)

/-- `MemoryConfigStore.Add` (insert or replace by host name). -/
def csAdd (s : MemoryConfigStore) (c : Config) : MemoryConfigStore :=
  { configs := insertA c.hostName c s.configs }

/-- `Manager.GetConfig` over the memory store (the store never errors). -/
def managerGetConfig (s : MemoryConfigStore) (hostName : String) :
    Option Config :=
  csGet s hostName

/-- The built-in fallback of `Manager.GetDefaultConfig`. -/
def builtinDockerIo : Config :=
  { hostName := "docker.io", remoteUrl := "https://registry-1.docker.io",
    username := "", password := "", dnsNames := none }

/-- `Manager.GetDefaultConfig`: prefer the `docker.io` mapping, else the
full record of the first listed mapping, else the built-in docker.io
default. -/
def managerGetDefaultConfig (s : MemoryConfigStore) : Config :=
  match csGet s "docker.io" with
  | some c => c
  | none =>
    match csList s with
    | c0 :: _ =>
      match csGet s c0.hostName with
      | some c => c
      | none => builtinDockerIo
    | [] => builtinDockerIo

/-- `host[:strings.IndexByte(host, ':')]`: strip the port from the `Host`
header (everything from the first colon on). -/
def stripPort (host : String) : String :=
  String.mk (host.data.takeWhile (fun c => c != ':'))

/-- Where an inbound gateway request is routed. -/
inductive Route where
  | proxyTo (cfg : Config)
  | localRegistry
deriving DecidableEq

/-- The routing decision of `server.CreateProxyHandler`: look up the
port-stripped `Host` header; when no mapping matches, fall back to
`Manager.GetDefaultConfig` — every request is handed to a reverse-proxy
handler for the chosen upstream mapping, never to the local V2 engine. -/
def createProxyRoute (s : MemoryConfigStore) (hostHeader : String) : Route :=
  let host := stripPort hostHeader
  match managerGetConfig s host with
  | some c => Route.proxyTo c
  | none => Route.proxyTo (managerGetDefaultConfig s)

/-! ## Admin API (`StartAdminServer`) -/

/-- JSON string literal (the concrete host names and credentials used here
need no escaping). -/
def jsonStr (s : String) : String := "\"" ++ s ++ "\""

def jsonStrList : List String → String
  | [] => ""
  | [x] => jsonStr x
  | x :: y :: rest => jsonStr x ++ "," ++ jsonStrList (y :: rest)

/-- `encoding/json` marshalling of `config.Config` under its struct tags:
`username`, `password` and `dnsNames` are omitted when empty
(`omitempty`). -/
def encodeConfig (c : Config) : String :=
  "\x7b\"hostName\":" ++ jsonStr c.hostName ++
  ",\"remoteUrl\":" ++ jsonStr c.remoteUrl ++
  (if c.username = "" then "" else ",\"username\":" ++ jsonStr c.username) ++
  (if c.password = "" then "" else ",\"password\":" ++ jsonStr c.password) ++
  (match c.dnsNames with
   | none => ""
   | some [] => ""
   | some l => ",\"dnsNames\":[" ++ jsonStrList l ++ "]") ++
  "\x7d"

/-- `GET /api/registries/<host>` (and `GET /api/v1/registries/<host>`):
`manager.GetConfig` then `json.NewEncoder(w).Encode(config)` — the FULL
record is serialized.  The pair is (status, body); `json.Encoder.Encode`
and `http.Error` both append a newline. -/
def adminGetRegistry (s : MemoryConfigStore) (hostName : String) :
    Nat × String :=
  match managerGetConfig s hostName with
  | none => (404, "Registry not found\n")
  | some c => (200, encodeConfig c ++ "\n")

/-! ## Concrete inputs used by witnesses and counterexamples -/

def helloworldBytes : List Nat := strBytes "helloworld"

def zeroDigest : String :=
  "sha256:0000000000000000000000000000000000000000000000000000000000000000"

/-- Fresh upload session `u1` in repository `acme/widget`. -/
def c1Start : MemoryStorage := initiateUpload newMemoryStorage "acme/widget" "u1"

/-- The store after PATCHing the bytes of "helloworld" into the session. -/
def c1Loaded : MemoryStorage :=
  match appendToUpload c1Start "acme/widget" "u1" helloworldBytes with
  | .ok p => p.1
  | .error _ => newMemoryStorage

def alwaysValid : List Nat → String → Bool := fun _ _ => true

def constDetect : List Nat → String := fun _ => mediaTypeManifestV2

def demoManifestBytes : List Nat := strBytes "\x7b\"schemaVersion\":2\x7d"

/-! ## Claim C1 -/

/-- C1: the claim states that `completeUpload(repo, uploadID, digest,
trailingBytes)` verifies that sha256 of the accumulated bytes plus the
trailing bytes equals the supplied digest, and that on mismatch
finalization fails with a client-error status and no blob is created.  The
code performs no verification at all: finalizing the accumulated bytes of
"helloworld" against an all-zero digest — which differs from the true
sha256 digest, first conjunct — succeeds with status 201, and the blob is
created under that wrong digest. -/
theorem C1_completeUpload_skips_digest_verification :
    ("sha256:" ++ sha256Hex helloworldBytes ≠ zeroDigest) ∧
    appendToUpload c1Start "acme/widget" "u1" helloworldBytes =
      Except.ok (c1Loaded, 10) ∧
    (handlePutUpload c1Loaded "acme/widget" "u1" zeroDigest []).1.status = 201 ∧
    getBlob (handlePutUpload c1Loaded "acme/widget" "u1" zeroDigest []).2
        "acme/widget" zeroDigest =
      Except.ok (helloworldBytes, 10) :=
  ⟨by decide, rfl, by decide, rfl⟩

/-! ## Claim C2 -/

theorem getManifestByDigest_putManifest (s : MemoryStorage)
    (repository reference dg : String) (B : List Nat) :
    getManifestByDigest (putManifest s repository reference dg B)
      repository dg = Except.ok (B, dg) := by
  unfold putManifest getManifestByDigest
  by_cases h1 : reference = ""
  · simp [h1, lookupA_insertA_self]
  · by_cases h2 : isDigestForm reference = true
    · simp [h1, h2, lookupA_insertA_self]
    · simp [h1, h2, lookupA_insertA_self]

/-- C2: for every manifest body `B` accepted by PUT (the JSON validation
outcome `validate B (detect B)` is true), the PUT answers 201, and a GET by
the server-computed digest `sha256(B)` returns status 200, exactly the
bytes `B`, and the header `Docker-Content-Digest: sha256:<hex of
sha256(B)>`. -/
theorem C2_manifest_put_get_round_trip
    (validate : List Nat → String → Bool) (detect : List Nat → String)
    (s : MemoryStorage) (repository reference : String) (B : List Nat)
    (hAcc : validate B (detect B) = true) :
    (handlePutManifest validate detect s repository reference B).1.status
        = 201 ∧
    handleGetManifest detect
        (handlePutManifest validate detect s repository reference B).2
        repository ("sha256:" ++ sha256Hex B) =
      { status := 200,
        headers := [("Content-Type", detect B),
                    ("Docker-Content-Digest", "sha256:" ++ sha256Hex B)],
        body := B } := by
  constructor
  · simp [handlePutManifest, hAcc]
  · simp [handlePutManifest, hAcc, handleGetManifest, isDigestForm_sha256,
          getManifestByDigest_putManifest]

/-- Witness for C2 at a concrete manifest body and repository. -/
theorem C2_manifest_put_get_round_trip_witness :
    (handlePutManifest alwaysValid constDetect newMemoryStorage
        "library/nginx" "latest" demoManifestBytes).1.status = 201 ∧
    handleGetManifest constDetect
        (handlePutManifest alwaysValid constDetect newMemoryStorage
          "library/nginx" "latest" demoManifestBytes).2
        "library/nginx" ("sha256:" ++ sha256Hex demoManifestBytes) =
      { status := 200,
        headers := [("Content-Type", constDetect demoManifestBytes),
                    ("Docker-Content-Digest",
                      "sha256:" ++ sha256Hex demoManifestBytes)],
        body := demoManifestBytes } :=
  C2_manifest_put_get_round_trip alwaysValid constDetect newMemoryStorage
    "library/nginx" "latest" demoManifestBytes rfl

/-! ## Claim C3 -/

/-- The 202 response built by `handlePatchUpload` when the session has
grown to `total` bytes. -/
def patchResp (repository uploadID : String) (total : Nat) : HttpResponse :=
  { status := 202,
    headers := [("Location",
                  "/v2/" ++ repository ++ "/blobs/uploads/" ++ uploadID),
                ("Range", "0-" ++ toString ((Int.ofNat total) - 1)),
                ("Docker-Upload-UUID", uploadID)],
    body := [] }

theorem runAppends_offsets (cs : List (List Nat)) :
    ∀ (s : MemoryStorage) (repository uploadID : String)
      (ru : List (String × List Nat)) (cur : List Nat),
      lookupA repository s.uploads = some ru →
      lookupA uploadID ru = some cur →
      ∃ sFin, runAppends s repository uploadID cs =
        Except.ok (sFin, (prefixTotals cs cur.length).map Int.ofNat) := by
  induction cs with
  | nil =>
    intro s repository uploadID ru cur h1 h2
    exact ⟨s, by simp [runAppends, prefixTotals]⟩
  | cons c cs ih =>
    intro s repository uploadID ru cur h1 h2
    have happ : appendToUpload s repository uploadID c =
        Except.ok
          ({ s with uploads :=
              insertA repository (insertA uploadID (cur ++ c) ru) s.uploads },
           Int.ofNat (cur ++ c).length) := by
      simp [appendToUpload, h1, h2]
    obtain ⟨sFin, hFin⟩ := ih
      { s with uploads :=
          insertA repository (insertA uploadID (cur ++ c) ru) s.uploads }
      repository uploadID (insertA uploadID (cur ++ c) ru) (cur ++ c)
      (lookupA_insertA_self _ _ _) (lookupA_insertA_self _ _ _)
    refine ⟨sFin, ?_⟩
    simp [runAppends, happ, hFin, prefixTotals, List.length_append]

theorem runPatchSeq_responses (cs : List (List Nat)) :
    ∀ (s : MemoryStorage) (repository uploadID : String)
      (ru : List (String × List Nat)) (cur : List Nat),
      lookupA repository s.uploads = some ru →
      lookupA uploadID ru = some cur →
      (runPatchSeq s repository uploadID cs).1 =
        (prefixTotals cs cur.length).map (patchResp repository uploadID) := by
  induction cs with
  | nil =>
    intro s repository uploadID ru cur h1 h2
    simp [runPatchSeq, prefixTotals]
  | cons c cs ih =>
    intro s repository uploadID ru cur h1 h2
    have happ : appendToUpload s repository uploadID c =
        Except.ok
          ({ s with uploads :=
              insertA repository (insertA uploadID (cur ++ c) ru) s.uploads },
           Int.ofNat (cur ++ c).length) := by
      simp [appendToUpload, h1, h2]
    have hrest := ih
      { s with uploads :=
          insertA repository (insertA uploadID (cur ++ c) ru) s.uploads }
      repository uploadID (insertA uploadID (cur ++ c) ru) (cur ++ c)
      (lookupA_insertA_self _ _ _) (lookupA_insertA_self _ _ _)
    simp [runPatchSeq, handlePatchUpload, happ, hrest, prefixTotals,
          patchResp, List.length_append]

theorem prefixTotals_le_chain (cs : List (List Nat)) :
    ∀ acc, List.Chain' (fun a b => a ≤ b) (prefixTotals cs acc) := by
  induction cs with
  | nil => intro acc; simp [prefixTotals]
  | cons c cs ih =>
    intro acc
    cases cs with
    | nil => simp [prefixTotals]
    | cons c2 cs2 =>
      have h2 := ih (acc + c.length)
      simp only [prefixTotals] at h2 ⊢
      exact List.chain'_cons.mpr ⟨Nat.le_add_right _ _, h2⟩

theorem prefixTotals_lt_chain (cs : List (List Nat)) :
    ∀ acc, (∀ c ∈ cs, c ≠ []) →
      List.Chain' (fun a b => a < b) (prefixTotals cs acc) := by
  induction cs with
  | nil => intro acc _; simp [prefixTotals]
  | cons c cs ih =>
    intro acc hne
    cases cs with
    | nil => simp [prefixTotals]
    | cons c2 cs2 =>
      have hc2 : c2 ≠ [] := hne c2 (by simp)
      have h2 := ih (acc + c.length) (fun x hx => hne x (by simp [hx]))
      simp only [prefixTotals] at h2 ⊢
      refine List.chain'_cons.mpr ⟨?_, h2⟩
      have : 0 < c2.length := List.length_pos.mpr hc2
      omega

/-- C3 (amended): for every sequence of PATCH chunks on a fresh upload
session, the offset reported by the i-th `appendToUpload` equals the sum of
the lengths of the first i chunks, the i-th PATCH response is 202 and
carries `Range: 0-(that sum minus 1)`, and the reported offsets are
non-decreasing — strictly increasing when every chunk is non-empty.  (The
original claim asserts strict monotonicity for arbitrary chunk sequences;
an empty chunk repeats the previous offset, see the counterexample.) -/
theorem C3_patch_offsets_are_prefix_sums (s : MemoryStorage)
    (repository uploadID : String) (cs : List (List Nat)) :
    (∃ sFin,
      runAppends (initiateUpload s repository uploadID) repository uploadID cs
        = Except.ok (sFin, (prefixTotals cs 0).map Int.ofNat)) ∧
    (runPatchSeq (initiateUpload s repository uploadID) repository uploadID
        cs).1 =
      (prefixTotals cs 0).map (patchResp repository uploadID) ∧
    List.Chain' (fun a b => a ≤ b) (prefixTotals cs 0) ∧
    ((∀ c ∈ cs, c ≠ []) →
      List.Chain' (fun a b => a < b) (prefixTotals cs 0)) := by
  have h1 : lookupA repository (initiateUpload s repository uploadID).uploads
      = some (insertA uploadID []
          ((lookupA repository s.uploads).getD [])) :=
    lookupA_insertA_self _ _ _
  have h2 : lookupA uploadID
      (insertA uploadID [] ((lookupA repository s.uploads).getD []))
      = some [] :=
    lookupA_insertA_self _ _ _
  exact ⟨runAppends_offsets cs _ repository uploadID _ [] h1 h2,
         runPatchSeq_responses cs _ repository uploadID _ [] h1 h2,
         prefixTotals_le_chain cs 0,
         fun h => prefixTotals_lt_chain cs 0 h⟩

/-- Witness for C3 (amended): the spec's own scenario — PATCH "hello" then
"world" — reports offsets 5 and 10 with `Range: 0-4` and `Range: 0-9`,
strictly increasing. -/
theorem C3_patch_offsets_are_prefix_sums_witness :
    (runPatchSeq (initiateUpload newMemoryStorage "acme/widget" "u1")
        "acme/widget" "u1" [strBytes "hello", strBytes "world"]).1 =
      (prefixTotals [strBytes "hello", strBytes "world"] 0).map
        (patchResp "acme/widget" "u1") ∧
    List.Chain' (fun a b => a < b)
      (prefixTotals [strBytes "hello", strBytes "world"] 0) :=
  ⟨(C3_patch_offsets_are_prefix_sums newMemoryStorage "acme/widget" "u1"
      [strBytes "hello", strBytes "world"]).2.1,
   (C3_patch_offsets_are_prefix_sums newMemoryStorage "acme/widget" "u1"
      [strBytes "hello", strBytes "world"]).2.2.2 (by decide)⟩

/-- The offset list of a storage-level PATCH run. -/
def appendOffsets (r : Except StorageErr (MemoryStorage × List Int)) :
    Option (List Int) :=
  match r with
  | .ok p => some p.2
  | .error _ => none

/-- C3 counterexample: a 1-byte PATCH followed by an empty PATCH reports
offsets 1 and then 1 again — the visible offset is not strictly monotonic,
refuting the claim as stated. -/
theorem C3_cx_empty_chunk_not_strictly_monotonic :
    appendOffsets
      (runAppends (initiateUpload newMemoryStorage "acme/widget" "u1")
        "acme/widget" "u1" [[104], []]) = some [1, 1] ∧
    ¬ List.Chain' (fun a b : Int => a < b) [1, 1] :=
  ⟨rfl, fun h => absurd (List.chain'_cons.mp h).1 (by omega)⟩

/-! ## Claims C4 and C10 -/

/-- Whether `DeleteManifest` succeeded. -/
def deleteOk (s : MemoryStorage) (repository reference : String) : Bool :=
  match deleteManifest s repository reference with
  | .ok _ => true
  | .error _ => false

/-- The store after a successful `DeleteManifest` (unchanged on error). -/
def afterDelete (s : MemoryStorage) (repository reference : String) :
    MemoryStorage :=
  match deleteManifest s repository reference with
  | .ok s2 => s2
  | .error _ => s

/-- C4 (amended): after `deleteManifest(repo, tag)` for a tag that pointed
at digest d, both `getManifest(repo, tag)` and `getManifestByDigest(repo,
d)` fail with not-found, unconditionally — the digest-addressed record is
removed even when another tag still references d (the store does no
reference counting; the quantification over arbitrary stores covers repos
where a second tag shares the digest). -/
theorem C4_delete_tag_removes_digest_record_unconditionally
    (s : MemoryStorage) (repository tag d : String) (r : Repo)
    (hr : lookupA repository s.repositories = some r)
    (htagForm : isDigestForm tag = false)
    (htag : lookupA tag r.tags = some d) :
    deleteOk s repository tag = true ∧
    getManifest (afterDelete s repository tag) repository tag =
      Except.error (StorageErr.tagNotFound tag) ∧
    getManifestByDigest (afterDelete s repository tag) repository d =
      Except.error (StorageErr.manifestNotFound d) := by
  have hdel : deleteManifest s repository tag = Except.ok { s with repositories := insertA repository { r with tags := eraseA tag r.tags, manifests := eraseA d r.manifests } s.repositories } := by
    simp [deleteManifest, hr, htagForm, htag]
  refine ⟨?_, ?_, ?_⟩
  · simp [deleteOk, hdel]
  · simp [afterDelete, hdel, getManifest, htagForm, lookupA_insertA_self,
          lookupA_eraseA_self]
  · simp [afterDelete, hdel, getManifestByDigest, lookupA_insertA_self,
          lookupA_eraseA_self]

/-- Digest used by the concrete delete scenarios. -/
def dDemo : String :=
  "sha256:aaaaaaaaaaaaaaaaaaaaaaaaaaaaaaaaaaaaaaaaaaaaaaaaaaaaaaaaaaaaaaaa"

/-- A store where tags `t1` and `t2` of `library/nginx` both reference the
same manifest digest. -/
def c4Store : MemoryStorage :=
  putManifest
    (putManifest newMemoryStorage "library/nginx" "t1" dDemo (strBytes "mani"))
    "library/nginx" "t2" dDemo (strBytes "mani")

/-- The `library/nginx` repository record of `c4Store`. -/
def c4Repo : Repo :=
  (lookupA "library/nginx" c4Store.repositories).getD (emptyRepo "")

/-- Witness for C4 (amended) on the two-tag store. -/
theorem C4_delete_tag_removes_digest_record_unconditionally_witness :
    deleteOk c4Store "library/nginx" "t1" = true ∧
    getManifest (afterDelete c4Store "library/nginx" "t1") "library/nginx"
        "t1" = Except.error (StorageErr.tagNotFound "t1") ∧
    getManifestByDigest (afterDelete c4Store "library/nginx" "t1")
        "library/nginx" dDemo =
      Except.error (StorageErr.manifestNotFound dDemo) :=
  C4_delete_tag_removes_digest_record_unconditionally c4Store "library/nginx"
    "t1" dDemo c4Repo rfl (by decide) rfl

/-- C4 counterexample: in `c4Store` the tag `t2` still references the
digest after `t1` is deleted, yet the digest-addressed manifest record is
gone — the "unless another tag still references d" branch of the claim is
false on the code. -/
theorem C4_cx_shared_digest_record_is_removed :
    deleteOk c4Store "library/nginx" "t1" = true ∧
    lookupA "t2"
        ((lookupA "library/nginx"
            (afterDelete c4Store "library/nginx" "t1").repositories).getD
          (emptyRepo "")).tags = some dDemo ∧
    getManifestByDigest (afterDelete c4Store "library/nginx" "t1")
        "library/nginx" dDemo =
      Except.error (StorageErr.manifestNotFound dDemo) :=
  ⟨rfl, rfl, rfl⟩

/-- C10: a digest-form `deleteManifest` removes only that digest's manifest
record — the tag map, blob map and upload sessions are unchanged (in
particular a tag that pointed at the deleted digest is still listed by
`listTags`), every other manifest record is untouched, and a subsequent
`getManifest(repo, tag)` for such a tag fails with not-found: the store
permits dangling tags. -/
theorem C10_digest_delete_is_frame_bounded
    (s : MemoryStorage) (repository tag d : String) (r : Repo)
    (hr : lookupA repository s.repositories = some r)
    (hd : isDigestForm d = true)
    (htagForm : isDigestForm tag = false)
    (htag : lookupA tag r.tags = some d) :
    deleteOk s repository d = true ∧
    ((lookupA repository (afterDelete s repository d).repositories).getD
        (emptyRepo repository)).tags = r.tags ∧
    ((lookupA repository (afterDelete s repository d).repositories).getD
        (emptyRepo repository)).blobs = r.blobs ∧
    ((lookupA repository (afterDelete s repository d).repositories).getD
        (emptyRepo repository)).manifests = eraseA d r.manifests ∧
    (afterDelete s repository d).uploads = s.uploads ∧
    listTags (afterDelete s repository d) repository =
      listTags s repository ∧
    (∀ d2, d2 ≠ d →
      lookupA d2 ((lookupA repository
          (afterDelete s repository d).repositories).getD
        (emptyRepo repository)).manifests = lookupA d2 r.manifests) ∧
    getManifest (afterDelete s repository d) repository tag =
      Except.error (StorageErr.manifestNotFound d) ∧
    getManifestByDigest (afterDelete s repository d) repository d =
      Except.error (StorageErr.manifestNotFound d) := by
  have hdel : deleteManifest s repository d = Except.ok { s with repositories := insertA repository { r with manifests := eraseA d r.manifests } s.repositories } := by
    simp [deleteManifest, hr, hd]
  have hA : afterDelete s repository d = { s with repositories := insertA repository { r with manifests := eraseA d r.manifests } s.repositories } := by
    simp [afterDelete, hdel]
  refine ⟨by simp [deleteOk, hdel], ?_, ?_, ?_, ?_, ?_, ?_, ?_, ?_⟩
  · simp [hA, lookupA_insertA_self]
  · simp [hA, lookupA_insertA_self]
  · simp [hA, lookupA_insertA_self]
  · simp [hA]
  · simp [hA, listTags, lookupA_insertA_self, hr]
  · intro d2 hne
    simp [hA, lookupA_insertA_self, lookupA_eraseA_ne d d2 _ hne]
  · simp [hA, getManifest, htagForm, lookupA_insertA_self, htag,
          getManifestByDigest, lookupA_eraseA_self]
  · simp [hA, getManifestByDigest, lookupA_insertA_self, lookupA_eraseA_self]

/-- Witness for C10 on the two-tag store: deleting by digest keeps both
tags listed while the tag lookup now dangles. -/
theorem C10_digest_delete_is_frame_bounded_witness :
    deleteOk c4Store "library/nginx" dDemo = true ∧
    ((lookupA "library/nginx"
        (afterDelete c4Store "library/nginx" dDemo).repositories).getD
      (emptyRepo "library/nginx")).tags = c4Repo.tags ∧
    listTags (afterDelete c4Store "library/nginx" dDemo) "library/nginx" =
      listTags c4Store "library/nginx" ∧
    lookupA "sha256:other"
        ((lookupA "library/nginx"
            (afterDelete c4Store "library/nginx" dDemo).repositories).getD
          (emptyRepo "library/nginx")).manifests =
      lookupA "sha256:other" c4Repo.manifests ∧
    getManifest (afterDelete c4Store "library/nginx" dDemo) "library/nginx"
        "t1" = Except.error (StorageErr.manifestNotFound dDemo) := by
  have h := C10_digest_delete_is_frame_bounded c4Store "library/nginx" "t1"
    dDemo c4Repo rfl (by decide) (by decide) rfl
  exact ⟨h.1, h.2.1, h.2.2.2.2.2.1, h.2.2.2.2.2.2.1 "sha256:other" (by decide),
         h.2.2.2.2.2.2.2.1⟩

/-! ## Claim C5 -/

def dummyEntry : ProxyRequest × ProxyResponse :=
  ({ method := "", url := "", headers := [], hasBody := false },
   { status := 0, location := none })

theorem rtTrace_length_le (base : Nat → ProxyRequest → ProxyResponse)
    (resolve : String → String → String) (orig : ProxyRequest) :
    ∀ (fuel : Nat) (req : ProxyRequest) (k : Nat),
      (rtTrace base resolve orig req k fuel).length ≤ fuel := by
  intro fuel
  induction fuel with
  | zero => intro req k; simp [rtTrace]
  | succ f ih =>
    intro req k
    simp only [rtTrace]
    by_cases hred : isRedirectStatus (base k req).status = true
    · cases hloc : (base k req).location with
      | none => simp [hred, hloc]
      | some loc =>
        have := ih (mkRedirectRequest orig (resolve req.url loc)) (k + 1)
        simp only [hred, hloc, if_true]
        simp only [List.length_cons]
        omega
    · simp [hred]

theorem rtTrace_head (base : Nat → ProxyRequest → ProxyResponse)
    (resolve : String → String → String) (orig : ProxyRequest)
    (f : Nat) (req : ProxyRequest) (k : Nat) :
    (rtTrace base resolve orig req k (f + 1)).getD 0 dummyEntry
      = (req, base k req) := by
  simp only [rtTrace]
  by_cases hred : isRedirectStatus (base k req).status = true
  · cases hloc : (base k req).location with
    | none => simp [hred, hloc]
    | some loc => simp [hred, hloc]
  · simp [hred]

theorem rtTrace_length_pos (base : Nat → ProxyRequest → ProxyResponse)
    (resolve : String → String → String) (orig : ProxyRequest)
    (f : Nat) (req : ProxyRequest) (k : Nat) :
    0 < (rtTrace base resolve orig req k (f + 1)).length := by
  simp only [rtTrace]
  by_cases hred : isRedirectStatus (base k req).status = true
  · cases hloc : (base k req).location with
    | none => simp [hred, hloc]
    | some loc => simp [hred, hloc]
  · simp [hred]

theorem lastResp_cons_cons (p q : ProxyRequest × ProxyResponse)
    (rest : List (ProxyRequest × ProxyResponse)) :
    lastResp (p :: q :: rest) = lastResp (q :: rest) := rfl

theorem lastResp_cons_of_ne (p : ProxyRequest × ProxyResponse) :
    ∀ (l : List (ProxyRequest × ProxyResponse)), l ≠ [] →
      lastResp (p :: l) = lastResp l
  | [], h => absurd rfl h
  | _ :: _, _ => rfl

theorem lastResp_eq_getD :
    ∀ (l : List (ProxyRequest × ProxyResponse)), l ≠ [] →
      lastResp l = (l.getD (l.length - 1) dummyEntry).2
  | [], h => absurd rfl h
  | [p], _ => rfl
  | p :: q :: rest, _ => by
    rw [lastResp_cons_cons, lastResp_eq_getD (q :: rest) (by simp)]
    simp [List.getD_cons_succ]

theorem rtTrace_resp (base : Nat → ProxyRequest → ProxyResponse)
    (resolve : String → String → String) (orig : ProxyRequest) :
    ∀ (fuel : Nat) (req : ProxyRequest) (k i : Nat),
      i < (rtTrace base resolve orig req k fuel).length →
      ((rtTrace base resolve orig req k fuel).getD i dummyEntry).2
        = base (k + i)
            ((rtTrace base resolve orig req k fuel).getD i dummyEntry).1 := by
  intro fuel
  induction fuel with
  | zero => intro req k i h; simp [rtTrace] at h
  | succ f ih =>
    intro req k i h
    simp only [rtTrace] at h ⊢
    by_cases hred : isRedirectStatus (base k req).status = true
    · cases hloc : (base k req).location with
      | none =>
        simp only [hred, hloc, if_true] at h ⊢
        have hi0 : i = 0 := by simp at h; omega
        subst hi0
        simp
      | some loc =>
        simp only [hred, hloc, if_true] at h ⊢
        cases i with
        | zero => simp
        | succ j =>
          simp only [List.getD_cons_succ, List.length_cons] at h ⊢
          have := ih (mkRedirectRequest orig (resolve req.url loc)) (k + 1) j
            (by omega)
          have harith : k + (j + 1) = k + 1 + j := by omega
          rw [harith]
          exact this
    · simp only [hred, if_false] at h ⊢
      have hi0 : i = 0 := by simp at h; omega
      subst hi0
      simp

theorem rtTrace_chain (base : Nat → ProxyRequest → ProxyResponse)
    (resolve : String → String → String) (orig : ProxyRequest) :
    ∀ (fuel : Nat) (req : ProxyRequest) (k i : Nat),
      i + 1 < (rtTrace base resolve orig req k fuel).length →
      isRedirectStatus
          ((rtTrace base resolve orig req k fuel).getD i dummyEntry).2.status
        = true ∧
      ∃ loc,
        ((rtTrace base resolve orig req k fuel).getD i dummyEntry).2.location
          = some loc ∧
        ((rtTrace base resolve orig req k fuel).getD (i + 1) dummyEntry).1
          = mkRedirectRequest orig
              (resolve
                ((rtTrace base resolve orig req k fuel).getD i
                  dummyEntry).1.url loc) := by
  intro fuel
  induction fuel with
  | zero => intro req k i h; simp [rtTrace] at h
  | succ f ih =>
    intro req k i h
    simp only [rtTrace] at h ⊢
    by_cases hred : isRedirectStatus (base k req).status = true
    · cases hloc : (base k req).location with
      | none =>
        simp only [hred, hloc, if_true] at h
        simp at h
      | some loc =>
        simp only [hred, hloc, if_true] at h ⊢
        cases i with
        | zero =>
          simp only [List.length_cons] at h
          have hpos : 0 <
              (rtTrace base resolve orig
                (mkRedirectRequest orig (resolve req.url loc)) (k + 1)
                f).length := by omega
          cases f with
          | zero => simp [rtTrace] at hpos
          | succ f2 =>
            refine ⟨by simpa using hred, loc, by simp [hloc], ?_⟩
            simp only [List.getD_cons_succ, List.getD_cons_zero]
            rw [rtTrace_head base resolve orig f2
              (mkRedirectRequest orig (resolve req.url loc)) (k + 1)]
        | succ j =>
          simp only [List.getD_cons_succ, List.length_cons] at h ⊢
          exact ih (mkRedirectRequest orig (resolve req.url loc)) (k + 1) j
            (by omega)
    · simp only [hred, if_false] at h
      simp at h

theorem rtTrace_terminal (base : Nat → ProxyRequest → ProxyResponse)
    (resolve : String → String → String) (orig : ProxyRequest) :
    ∀ (fuel : Nat) (req : ProxyRequest) (k i : Nat),
      i < (rtTrace base resolve orig req k fuel).length →
      isRedirectStatus
          ((rtTrace base resolve orig req k fuel).getD i dummyEntry).2.status
        = false →
      i + 1 = (rtTrace base resolve orig req k fuel).length ∧
      lastResp (rtTrace base resolve orig req k fuel)
        = ((rtTrace base resolve orig req k fuel).getD i dummyEntry).2 := by
  intro fuel
  induction fuel with
  | zero => intro req k i h; simp [rtTrace] at h
  | succ f ih =>
    intro req k i h hnr
    simp only [rtTrace] at h hnr ⊢
    by_cases hred : isRedirectStatus (base k req).status = true
    · cases hloc : (base k req).location with
      | none =>
        simp only [hred, hloc, if_true] at h hnr ⊢
        have hi0 : i = 0 := by simp at h; omega
        subst hi0
        simp only [List.getD_cons_zero] at hnr
        rw [hred] at hnr
        exact absurd hnr (by simp)
      | some loc =>
        simp only [hred, hloc, if_true] at h hnr ⊢
        cases i with
        | zero =>
          simp only [List.getD_cons_zero] at hnr
          rw [hred] at hnr
          exact absurd hnr (by simp)
        | succ j =>
          simp only [List.getD_cons_succ, List.length_cons] at h hnr ⊢
          obtain ⟨hj1, hj2⟩ := ih
            (mkRedirectRequest orig (resolve req.url loc)) (k + 1) j
            (by omega) hnr
          have hne : rtTrace base resolve orig
              (mkRedirectRequest orig (resolve req.url loc)) (k + 1) f
              ≠ [] := by
            intro hc
            rw [hc] at hj1
            simp at hj1
          refine ⟨by omega, ?_⟩
          rw [lastResp_cons_of_ne _ _ hne]
          exact hj2
    · simp only [hred, if_false] at h hnr ⊢
      have hi0 : i = 0 := by simp at h; omega
      subst hi0
      simp [lastResp]

/-- C5: the redirect-following transport dispatches through the base
transport at most 5 times (the trace records one entry per dispatch, each
the base transport's answer to the dispatched request); any response whose
status is not in 301, 302, 303, 307 ends the loop and is returned as the
result unchanged; every redirected request is built from the `Location`
value resolved against the current URL with the ORIGINAL request's method
and headers and no body; and when the trace is exhausted at 5 dispatches
the 5th response is returned unchanged even if it is still a redirect. -/
theorem C5_redirect_transport_contract
    (base : Nat → ProxyRequest → ProxyResponse)
    (resolve : String → String → String) (req : ProxyRequest) :
    (rtTrace base resolve req req 0 5).length ≤ 5 ∧
    roundTrip base resolve req = lastResp (rtTrace base resolve req req 0 5) ∧
    (∀ i, i < (rtTrace base resolve req req 0 5).length →
      ((rtTrace base resolve req req 0 5).getD i dummyEntry).2
        = base i ((rtTrace base resolve req req 0 5).getD i dummyEntry).1) ∧
    (∀ i, i < (rtTrace base resolve req req 0 5).length →
      isRedirectStatus
          ((rtTrace base resolve req req 0 5).getD i dummyEntry).2.status
        = false →
      i + 1 = (rtTrace base resolve req req 0 5).length ∧
      roundTrip base resolve req
        = ((rtTrace base resolve req req 0 5).getD i dummyEntry).2) ∧
    (∀ i, i + 1 < (rtTrace base resolve req req 0 5).length →
      isRedirectStatus
          ((rtTrace base resolve req req 0 5).getD i dummyEntry).2.status
        = true ∧
      ∃ loc,
        ((rtTrace base resolve req req 0 5).getD i dummyEntry).2.location
          = some loc ∧
        ((rtTrace base resolve req req 0 5).getD (i + 1) dummyEntry).1
          = mkRedirectRequest req
              (resolve ((rtTrace base resolve req req 0 5).getD i
                dummyEntry).1.url loc) ∧
        ((rtTrace base resolve req req 0 5).getD (i + 1) dummyEntry).1.method
          = req.method ∧
        ((rtTrace base resolve req req 0 5).getD (i + 1)
            dummyEntry).1.headers = req.headers ∧
        ((rtTrace base resolve req req 0 5).getD (i + 1) dummyEntry).1.hasBody
          = false) ∧
    ((rtTrace base resolve req req 0 5).length = 5 →
      roundTrip base resolve req
        = ((rtTrace base resolve req req 0 5).getD 4 dummyEntry).2) := by
  refine ⟨rtTrace_length_le base resolve req 5 req 0, rfl, ?_, ?_, ?_, ?_⟩
  · intro i hi
    have := rtTrace_resp base resolve req 5 req 0 i hi
    simpa using this
  · intro i hi hnr
    exact rtTrace_terminal base resolve req 5 req 0 i hi hnr
  · intro i hi
    obtain ⟨hred, loc, hloc, heq⟩ := rtTrace_chain base resolve req 5 req 0 i hi
    refine ⟨hred, loc, hloc, heq, ?_, ?_, ?_⟩ <;> rw [heq] <;> rfl
  · intro hlen
    have hne : rtTrace base resolve req req 0 5 ≠ [] := by
      intro hc; rw [hc] at hlen; simp at hlen
    have := lastResp_eq_getD (rtTrace base resolve req req 0 5) hne
    rw [roundTrip, this, hlen]

/-- Base transport for the witness: a 307 redirect to a CDN, then 200. -/
def demoBase : Nat → ProxyRequest → ProxyResponse := fun k _ =>
  if k = 0 then { status := 307, location := some "https://cdn.example.com/x" }
  else { status := 200, location := none }

def demoResolve : String → String → String := fun _ l => l

def demoReq : ProxyRequest :=
  { method := "GET", url := "https://registry-1.docker.io/v2/x/blobs/a",
    headers := [("Authorization", "Bearer t")], hasBody := false }

/-- Witness for C5: on a 307-then-200 upstream the trace has 2 dispatches,
the non-redirect 200 at index 1 ends the loop and is the result, and the
redirected request keeps the original headers with no body. -/
theorem C5_redirect_transport_contract_witness :
    (rtTrace demoBase demoResolve demoReq demoReq 0 5).length ≤ 5 ∧
    (1 + 1 = (rtTrace demoBase demoResolve demoReq demoReq 0 5).length ∧
      roundTrip demoBase demoResolve demoReq
        = ((rtTrace demoBase demoResolve demoReq demoReq 0 5).getD 1
            dummyEntry).2) ∧
    isRedirectStatus
        ((rtTrace demoBase demoResolve demoReq demoReq 0 5).getD 0
          dummyEntry).2.status = true := by
  have h := C5_redirect_transport_contract demoBase demoResolve demoReq
  exact ⟨h.1, h.2.2.2.1 1 (by decide) (by decide),
         (h.2.2.2.2.1 0 (by decide)).1⟩

/-! ## Claim C6 -/

theorem csList_map_credless (l : List (String × Config)) (f : Config → Config)
    (hf : ∀ c, (f c).hostName = c.hostName ∧ (f c).remoteUrl = c.remoteUrl) :
    (l.map (fun p => (p.1, f p.2))).map (fun p => scrubConfig p.2)
      = l.map (fun p => scrubConfig p.2) := by
  induction l with
  | nil => rfl
  | cons p rest ih =>
    simp only [List.map_cons, ih]
    have h1 := (hf p.2).1
    have h2 := (hf p.2).2
    simp [scrubConfig, h1, h2]

/-- C6: for every state of the in-memory ConfigStore, `List` returns
sanitized copies — no mapping in the output carries a username or password,
and the output is invariant under any rewrite of the stored records that
preserves host name and remote URL (so it is independent of the stored
credentials) — while `Get` (here observed through `Add` then `Get`) returns
the full stored record including credentials. -/
theorem C6_list_sanitizes_get_returns_full (s : MemoryConfigStore) :
    (∀ c ∈ csList s, c.username = "" ∧ c.password = "") ∧
    (∀ f : Config → Config,
      (∀ c, (f c).hostName = c.hostName ∧ (f c).remoteUrl = c.remoteUrl) →
      csList { configs := s.configs.map (fun p => (p.1, f p.2)) }
        = csList s) ∧
    (∀ c : Config, csGet (csAdd s c) c.hostName = some c) := by
  refine ⟨?_, ?_, ?_⟩
  · intro c hc
    simp only [csList, List.mem_map] at hc
    obtain ⟨p, _, hpc⟩ := hc
    rw [← hpc]
    simp [scrubConfig]
  · intro f hf
    show (s.configs.map (fun p => (p.1, f p.2))).map
        (fun p => scrubConfig p.2) = s.configs.map (fun p => scrubConfig p.2)
    exact csList_map_credless s.configs f hf
  · intro c
    simp [csGet, csAdd, lookupA_insertA_self]

/-- A mapping with credentials, used by the config-store scenarios. -/
def cfgDemo : Config :=
  { hostName := "example.com", remoteUrl := "https://r.example.com",
    username := "alice", password := "hunter2", dnsNames := none }

def csDemo : MemoryConfigStore := { configs := [("example.com", cfgDemo)] }

/-- Redaction of the stored password only. -/
def redactPw : Config → Config := fun c => { c with password := "" }

/-- Witness for C6 on a store holding credentials. -/
theorem C6_list_sanitizes_get_returns_full_witness :
    ((scrubConfig cfgDemo).username = "" ∧ (scrubConfig cfgDemo).password = "") ∧
    csList { configs := csDemo.configs.map (fun p => (p.1, redactPw p.2)) }
      = csList csDemo ∧
    csGet (csAdd csDemo cfgDemo) cfgDemo.hostName = some cfgDemo := by
  have h := C6_list_sanitizes_get_returns_full csDemo
  exact ⟨h.1 (scrubConfig cfgDemo) (by decide),
         h.2.1 redactPw (fun c => ⟨rfl, rfl⟩),
         h.2.2 cfgDemo⟩

/-! ## Claim C7 -/

/-- C7 (amended): the admin endpoint `GET /api/registries/<host>` returns
status 200 and the FULL stored record serialized by `encoding/json` — the
username and password fields appear in the body whenever they are
non-empty (only the list endpoint is sanitized). -/
theorem C7_admin_get_returns_full_record (s : MemoryConfigStore)
    (hostName : String) (c : Config) (hc : csGet s hostName = some c) :
    adminGetRegistry s hostName = (200, encodeConfig c ++ "\n") := by
  simp [adminGetRegistry, managerGetConfig, hc]

/-- Witness for C7 (amended). -/
theorem C7_admin_get_returns_full_record_witness :
    adminGetRegistry csDemo "example.com"
      = (200, encodeConfig cfgDemo ++ "\n") :=
  C7_admin_get_returns_full_record csDemo "example.com" cfgDemo rfl

/-- C7 counterexample: with stored credentials alice/hunter2 for
`example.com`, the response body of `GET /api/registries/example.com`
contains both the username and the password — the claim that the body
never contains them is false. -/
theorem C7_cx_admin_get_leaks_credentials :
    (adminGetRegistry csDemo "example.com").1 = 200 ∧
    strHasSub "hunter2" (adminGetRegistry csDemo "example.com").2 = true ∧
    strHasSub "alice" (adminGetRegistry csDemo "example.com").2 = true :=
  ⟨rfl, by decide, by decide⟩

/-! ## Claim C8 -/

/-- Whether the store holds the addressed upload session. -/
def uploadSessionExists (s : MemoryStorage) (repository uploadID : String) :
    Bool :=
  match lookupA repository s.uploads with
  | none => false
  | some ru => (lookupA uploadID ru).isSome

/-- C8 (amended): a PATCH append or PUT finalize addressed to an upload
session ID that does not exist in the store is answered with HTTP 500 —
the upload handlers surface every storage error, including
unknown-session, as internal-server-error — not with the 404 the claim
states. -/
theorem C8_unknown_upload_session_returns_500 (s : MemoryStorage)
    (repository uploadID digest : String) (body : List Nat)
    (h : uploadSessionExists s repository uploadID = false)
    (hd : digest ≠ "") :
    (handlePatchUpload s repository uploadID body).1.status = 500 ∧
    (handlePutUpload s repository uploadID digest body).1.status = 500 := by
  cases hru : lookupA repository s.uploads with
  | none =>
    constructor
    · simp [handlePatchUpload, appendToUpload, hru]
    · simp [handlePutUpload, hd, completeUpload, hru]
  | some ru =>
    have hid : lookupA uploadID ru = none := by
      simp only [uploadSessionExists, hru] at h
      cases hcase : lookupA uploadID ru with
      | none => rfl
      | some v => rw [hcase] at h; simp at h
    constructor
    · simp [handlePatchUpload, appendToUpload, hru, hid]
    · simp [handlePutUpload, hd, completeUpload, hru, hid]

/-- Witness for C8 (amended) on the empty store. -/
theorem C8_unknown_upload_session_returns_500_witness :
    (handlePatchUpload newMemoryStorage "acme/widget" "missing" []).1.status
      = 500 ∧
    (handlePutUpload newMemoryStorage "acme/widget" "missing" zeroDigest
        []).1.status = 500 :=
  C8_unknown_upload_session_returns_500 newMemoryStorage "acme/widget"
    "missing" zeroDigest [] (by decide) (by decide)

/-- C8 counterexample: the status for an unknown session is 500, not the
404 the claim requires. -/
theorem C8_cx_unknown_upload_not_404 :
    (handlePatchUpload newMemoryStorage "acme/widget" "missing" []).1.status
      = 500 ∧
    (handlePutUpload newMemoryStorage "acme/widget" "missing" zeroDigest
        []).1.status = 500 ∧
    (handlePatchUpload newMemoryStorage "acme/widget" "missing"
        []).1.status ≠ 404 :=
  ⟨rfl, rfl, by decide⟩

/-! ## Claim C9 -/

/-- C9 (amended): an inbound gateway request whose port-stripped Host
header matches no mapping is handed to a reverse-proxy handler for
`Manager.GetDefaultConfig()` — the docker.io mapping if configured, else
the first listed mapping, else a built-in docker.io upstream; the handler
never routes a request to the local V2 registry engine. -/
theorem C9_unmatched_host_proxies_to_default (s : MemoryConfigStore)
    (hostHeader : String)
    (h : managerGetConfig s (stripPort hostHeader) = none) :
    createProxyRoute s hostHeader
      = Route.proxyTo (managerGetDefaultConfig s) ∧
    ∀ host2, createProxyRoute s host2 ≠ Route.localRegistry := by
  constructor
  · simp [createProxyRoute, h]
  · intro host2
    unfold createProxyRoute
    cases hm : managerGetConfig s (stripPort host2) <;> simp [hm]

/-- Witness for C9 (amended). -/
theorem C9_unmatched_host_proxies_to_default_witness :
    createProxyRoute csDemo "unknown.example.com:443"
      = Route.proxyTo (managerGetDefaultConfig csDemo) ∧
    createProxyRoute csDemo "unknown.example.com:443"
      ≠ Route.localRegistry := by
  have h := C9_unmatched_host_proxies_to_default csDemo
    "unknown.example.com:443" (by decide)
  exact ⟨h.1, h.2 "unknown.example.com:443"⟩

/-- C9 counterexample: with only `example.com` configured, a request for
`unknown.example.com:443` is proxied to the default upstream mapping (the
first listed config) — it is not routed to the local V2 registry engine as
the claim states. -/
theorem C9_cx_unmatched_host_proxied_upstream :
    createProxyRoute csDemo "unknown.example.com:443"
      = Route.proxyTo cfgDemo ∧
    createProxyRoute csDemo "unknown.example.com:443"
      ≠ Route.localRegistry :=
  ⟨by decide, by decide⟩

end ContainerUI
